import Mathlib

/-!
Verification development for the winbear compilation-database generator.

The definitions below are a shallow embedding of the Rust sources:
  * src/citnames/src/semantic/parsers.rs   (flag grammar and parser combinators)
  * src/citnames/src/semantic/tool/tool_gcc.rs  (gcc-like recognizer and flag table)
  * src/citnames/src/semantic/tool/tool_wrapper.rs (ccache/distcc wrapper)
  * src/citnames/src/semantic.rs           (entry synthesis)
  * src/citnames/src/resolver.rs           (executable resolver)
  * src/citnames/src/output.rs             (duplicate filter)
  * src/src/execution_logger.rs            (debug-event handler)

Strings are compared the way Rust compares `&str` (byte-wise over the UTF-8
encoding); machine counters are small naturals (the `u8` count field of a
flag definition holds only 0 or 1, far from overflow).  Stateful code is
embedded as explicit state passing; calls that can panic in Rust (`unwrap`,
`assert!`, out-of-bounds slicing) are modelled by an explicit panic outcome.
-/

namespace Winbear

/-! ## UTF-8 bytes and the byte-wise string order used by Rust `&str` -/

/-- UTF-8 encoding of a single scalar value (as a list of byte values). -/
def charBytes (c : Char) : List Nat :=
  let n := c.toNat
  if n < 0x80 then [n]
  else if n < 0x800 then [0xC0 + n / 64, 0x80 + n % 64]
  else if n < 0x10000 then [0xE0 + n / 4096, 0x80 + (n / 64) % 64, 0x80 + n % 64]
  else [0xF0 + n / 262144, 0x80 + (n / 4096) % 64, 0x80 + (n / 64) % 64, 0x80 + n % 64]

/-- The UTF-8 byte sequence of a string (Rust `str::as_bytes`). -/
def strBytes (s : String) : List Nat :=
  s.data.flatMap charBytes

/-- Lexicographic order on byte sequences; this is how Rust orders `&str`
(and hence how the `BTreeMap` of flag definitions orders its keys). -/
def byteLt : List Nat → List Nat → Bool
  | [], [] => false
  | [], _ :: _ => true
  | _ :: _, [] => false
  | a :: as, b :: bs => if a < b then true else if b < a then false else byteLt as bs

/-- Rust `&str` ordering lifted to strings. -/
def strLtB (a b : String) : Bool :=
  byteLt (strBytes a) (strBytes b)

/-- Byte-sequence test: `a` is an initial segment of `b`. -/
def bytePre : List Nat → List Nat → Bool
  | [], _ => true
  | _ :: _, [] => false
  | a :: as, b :: bs => a = b && bytePre as bs

/-! ## Flag data model (parsers.rs) -/

/-- Source `CompilerFlagType` from parsers.rs. -/
inductive CompilerFlagType where
  | kindOfOutput
  | kindOfOutputNoLinking
  | kindOfOutputInfo
  | kindOfOutputOutput
  | preprocessor
  | preprocessorMake
  | linker
  | linkerObjectFile
  | directorySearch
  | directorySearchLinker
  | source
  | other
  deriving DecidableEq, Repr

/-- Source `Match` from parsers.rs; `sticky` models `Match::Partial` (the flag key
may appear glued to its value). -/
inductive MatchKind where
  | exact
  | sticky
  | both
  deriving DecidableEq, Repr

/-- Source `Instruction` from parsers.rs. -/
structure Instruction where
  count : Nat
  matchKind : MatchKind
  equal : Bool
  deriving DecidableEq, Repr

/-- Source `Instruction::count`: tokens consumed after the key, depending on whether
the key matched the argument exactly. -/
def Instruction.countFor (i : Instruction) (exactMatch : Bool) : Nat :=
  if i.count > 0 then (if exactMatch then i.count else i.count - 1) else i.count

/-- Source `Instruction::exact_match_allowed`. -/
def Instruction.exactAllowed (i : Instruction) : Bool :=
  match i.matchKind with
  | .exact => true
  | .both => true
  | .sticky => false

/-- Source `Instruction::partial_match_allowed`. -/
def Instruction.stickyAllowed (i : Instruction) : Bool :=
  match i.matchKind with
  | .sticky => true
  | .both => true
  | .exact => false

/-- Source `FlagDefinition` from parsers.rs. -/
structure FlagDefinition where
  consumption : Instruction
  type_ : CompilerFlagType
  deriving DecidableEq, Repr

/-- A parsed `CompilerFlag`: the consumed argument slice plus its category. -/
structure CompilerFlag where
  arguments : List String
  type_ : CompilerFlagType
  deriving DecidableEq, Repr

/-- Shorthand for building a table entry. -/
def fd (count : Nat) (m : MatchKind) (eq : Bool) (t : CompilerFlagType) : FlagDefinition :=
  { consumption := { count := count, matchKind := m, equal := eq }, type_ := t }

/-- Source `FLAG_DEFINITION` from tool_gcc.rs, in source order (including the
duplicate `-E` entry near the end of the table). -/
def flagDefinitionList : List (String × FlagDefinition) := [
  ("-x", fd 1 .exact false .kindOfOutput),
  ("-c", fd 0 .exact false .kindOfOutputNoLinking),
  ("-S", fd 0 .exact false .kindOfOutputNoLinking),
  ("-E", fd 0 .exact false .kindOfOutputNoLinking),
  ("-o", fd 1 .exact false .kindOfOutputOutput),
  ("-dumpbase", fd 1 .exact false .kindOfOutput),
  ("-dumpbase-ext", fd 1 .exact false .kindOfOutput),
  ("-dumpdir", fd 1 .exact false .kindOfOutput),
  ("-v", fd 0 .exact false .kindOfOutput),
  ("-###", fd 0 .exact false .kindOfOutput),
  ("--help", fd 0 .both true .kindOfOutputInfo),
  ("--target-help", fd 0 .exact false .kindOfOutputInfo),
  ("--version", fd 0 .exact false .kindOfOutputInfo),
  ("-pass-exit-codes", fd 0 .exact false .kindOfOutput),
  ("-pipe", fd 0 .exact false .kindOfOutput),
  ("-specs", fd 0 .sticky true .kindOfOutput),
  ("-wrapper", fd 1 .exact false .kindOfOutput),
  ("-ffile-prefix-map", fd 0 .sticky true .kindOfOutput),
  ("-fplugin", fd 0 .sticky true .kindOfOutput),
  ("@", fd 0 .sticky false .kindOfOutput),
  ("-A", fd 1 .both false .preprocessor),
  ("-D", fd 1 .both false .preprocessor),
  ("-U", fd 1 .both false .preprocessor),
  ("-include", fd 1 .exact false .preprocessor),
  ("-imacros", fd 1 .exact false .preprocessor),
  ("-undef", fd 0 .exact false .preprocessor),
  ("-pthread", fd 0 .exact false .preprocessor),
  ("-M", fd 0 .exact false .preprocessorMake),
  ("-MM", fd 0 .exact false .preprocessorMake),
  ("-MG", fd 0 .exact false .preprocessorMake),
  ("-MP", fd 0 .exact false .preprocessorMake),
  ("-MD", fd 0 .exact false .preprocessorMake),
  ("-MMD", fd 0 .exact false .preprocessorMake),
  ("-MF", fd 1 .exact false .preprocessorMake),
  ("-MT", fd 1 .exact false .preprocessorMake),
  ("-MQ", fd 1 .exact false .preprocessorMake),
  ("-C", fd 0 .exact false .preprocessor),
  ("-CC", fd 0 .exact false .preprocessor),
  ("-P", fd 0 .exact false .preprocessor),
  ("-traditional", fd 0 .both false .preprocessor),
  ("-trigraphs", fd 0 .exact false .preprocessor),
  ("-remap", fd 0 .exact false .preprocessor),
  ("-H", fd 0 .exact false .preprocessor),
  ("-Xpreprocessor", fd 1 .exact false .preprocessor),
  ("-Wp,", fd 0 .sticky false .preprocessor),
  ("-I", fd 1 .both false .directorySearch),
  ("-iplugindir", fd 0 .sticky true .directorySearch),
  ("-iquote", fd 1 .exact false .directorySearch),
  ("-isystem", fd 1 .exact false .directorySearch),
  ("-idirafter", fd 1 .exact false .directorySearch),
  ("-iprefix", fd 1 .exact false .directorySearch),
  ("-iwithprefix", fd 1 .exact false .directorySearch),
  ("-iwithprefixbefore", fd 1 .exact false .directorySearch),
  ("-isysroot", fd 1 .exact false .directorySearch),
  ("-imultilib", fd 1 .exact false .directorySearch),
  ("-L", fd 1 .both false .directorySearchLinker),
  ("-B", fd 1 .both false .directorySearch),
  ("--sysroot", fd 1 .both true .directorySearch),
  ("-flinker-output", fd 0 .sticky true .linker),
  ("-fuse-ld", fd 0 .sticky true .linker),
  ("-l", fd 1 .both false .linker),
  ("-nostartfiles", fd 0 .exact false .linker),
  ("-nodefaultlibs", fd 0 .exact false .linker),
  ("-nolibc", fd 0 .exact false .linker),
  ("-nostdlib", fd 0 .exact false .linker),
  ("-e", fd 1 .exact false .linker),
  ("-entry", fd 0 .sticky true .linker),
  ("-pie", fd 0 .exact false .linker),
  ("-no-pie", fd 0 .exact false .linker),
  ("-static-pie", fd 0 .exact false .linker),
  ("-r", fd 0 .exact false .linker),
  ("-rdynamic", fd 0 .exact false .linker),
  ("-s", fd 0 .exact false .linker),
  ("-symbolic", fd 0 .exact false .linker),
  ("-static", fd 0 .both false .linker),
  ("-shared", fd 0 .both false .linker),
  ("-T", fd 1 .exact false .linker),
  ("-Xlinker", fd 1 .exact false .linker),
  ("-Wl,", fd 0 .sticky false .linker),
  ("-u", fd 1 .exact false .linker),
  ("-z", fd 1 .exact false .linker),
  ("-Xassembler", fd 1 .exact false .other),
  ("-Wa,", fd 0 .sticky false .other),
  ("-ansi", fd 0 .exact false .other),
  ("-aux-info", fd 1 .exact false .other),
  ("-std", fd 0 .sticky true .other),
  ("-O", fd 0 .both false .other),
  ("-g", fd 0 .both false .other),
  ("-f", fd 0 .sticky false .other),
  ("-m", fd 0 .sticky false .other),
  ("-p", fd 0 .sticky false .other),
  ("-W", fd 0 .sticky false .other),
  ("-no", fd 0 .sticky false .other),
  ("-tno", fd 0 .sticky false .other),
  ("-save", fd 0 .sticky false .other),
  ("-d", fd 0 .sticky false .other),
  ("-E", fd 0 .sticky false .other),
  ("-Q", fd 0 .sticky false .other),
  ("-X", fd 0 .sticky false .other),
  ("-Y", fd 0 .sticky false .other),
  ("--", fd 0 .sticky false .other)]

/-- Ordered insertion with overwrite: one step of collecting the pair list
into a `BTreeMap` (a later pair with an equal key replaces the earlier one). -/
def btreeInsert : List (String × FlagDefinition) → (String × FlagDefinition) →
    List (String × FlagDefinition)
  | [], kv => [kv]
  | e :: rest, kv =>
    if strLtB kv.1 e.1 then kv :: e :: rest
    else if kv.1 = e.1 then kv :: rest
    else e :: btreeInsert rest kv

/-- Source `FLAG_DEFINITION_MAP` from tool_gcc.rs: the flag table collected into a
`BTreeMap` (keys sorted in the byte-wise order, a later duplicate
overwriting an earlier one). -/
def flagMapBuilt : List (String × FlagDefinition) :=
  flagDefinitionList.foldl btreeInsert []

/-- The collected flag map, spelled out (the theorem `flagMap_is_built`
below proves it equal to `flagMapBuilt`; note that the `-E` key carries the
`Other`/`Partial` definition, the later of the two duplicate entries). -/
def flagMap : List (String × FlagDefinition) := [
  ("-###", fd 0 .exact false .kindOfOutput),
  ("--", fd 0 .sticky false .other),
  ("--help", fd 0 .both true .kindOfOutputInfo),
  ("--sysroot", fd 1 .both true .directorySearch),
  ("--target-help", fd 0 .exact false .kindOfOutputInfo),
  ("--version", fd 0 .exact false .kindOfOutputInfo),
  ("-A", fd 1 .both false .preprocessor),
  ("-B", fd 1 .both false .directorySearch),
  ("-C", fd 0 .exact false .preprocessor),
  ("-CC", fd 0 .exact false .preprocessor),
  ("-D", fd 1 .both false .preprocessor),
  ("-E", fd 0 .sticky false .other),
  ("-H", fd 0 .exact false .preprocessor),
  ("-I", fd 1 .both false .directorySearch),
  ("-L", fd 1 .both false .directorySearchLinker),
  ("-M", fd 0 .exact false .preprocessorMake),
  ("-MD", fd 0 .exact false .preprocessorMake),
  ("-MF", fd 1 .exact false .preprocessorMake),
  ("-MG", fd 0 .exact false .preprocessorMake),
  ("-MM", fd 0 .exact false .preprocessorMake),
  ("-MMD", fd 0 .exact false .preprocessorMake),
  ("-MP", fd 0 .exact false .preprocessorMake),
  ("-MQ", fd 1 .exact false .preprocessorMake),
  ("-MT", fd 1 .exact false .preprocessorMake),
  ("-O", fd 0 .both false .other),
  ("-P", fd 0 .exact false .preprocessor),
  ("-Q", fd 0 .sticky false .other),
  ("-S", fd 0 .exact false .kindOfOutputNoLinking),
  ("-T", fd 1 .exact false .linker),
  ("-U", fd 1 .both false .preprocessor),
  ("-W", fd 0 .sticky false .other),
  ("-Wa,", fd 0 .sticky false .other),
  ("-Wl,", fd 0 .sticky false .linker),
  ("-Wp,", fd 0 .sticky false .preprocessor),
  ("-X", fd 0 .sticky false .other),
  ("-Xassembler", fd 1 .exact false .other),
  ("-Xlinker", fd 1 .exact false .linker),
  ("-Xpreprocessor", fd 1 .exact false .preprocessor),
  ("-Y", fd 0 .sticky false .other),
  ("-ansi", fd 0 .exact false .other),
  ("-aux-info", fd 1 .exact false .other),
  ("-c", fd 0 .exact false .kindOfOutputNoLinking),
  ("-d", fd 0 .sticky false .other),
  ("-dumpbase", fd 1 .exact false .kindOfOutput),
  ("-dumpbase-ext", fd 1 .exact false .kindOfOutput),
  ("-dumpdir", fd 1 .exact false .kindOfOutput),
  ("-e", fd 1 .exact false .linker),
  ("-entry", fd 0 .sticky true .linker),
  ("-f", fd 0 .sticky false .other),
  ("-ffile-prefix-map", fd 0 .sticky true .kindOfOutput),
  ("-flinker-output", fd 0 .sticky true .linker),
  ("-fplugin", fd 0 .sticky true .kindOfOutput),
  ("-fuse-ld", fd 0 .sticky true .linker),
  ("-g", fd 0 .both false .other),
  ("-idirafter", fd 1 .exact false .directorySearch),
  ("-imacros", fd 1 .exact false .preprocessor),
  ("-imultilib", fd 1 .exact false .directorySearch),
  ("-include", fd 1 .exact false .preprocessor),
  ("-iplugindir", fd 0 .sticky true .directorySearch),
  ("-iprefix", fd 1 .exact false .directorySearch),
  ("-iquote", fd 1 .exact false .directorySearch),
  ("-isysroot", fd 1 .exact false .directorySearch),
  ("-isystem", fd 1 .exact false .directorySearch),
  ("-iwithprefix", fd 1 .exact false .directorySearch),
  ("-iwithprefixbefore", fd 1 .exact false .directorySearch),
  ("-l", fd 1 .both false .linker),
  ("-m", fd 0 .sticky false .other),
  ("-no", fd 0 .sticky false .other),
  ("-no-pie", fd 0 .exact false .linker),
  ("-nodefaultlibs", fd 0 .exact false .linker),
  ("-nolibc", fd 0 .exact false .linker),
  ("-nostartfiles", fd 0 .exact false .linker),
  ("-nostdlib", fd 0 .exact false .linker),
  ("-o", fd 1 .exact false .kindOfOutputOutput),
  ("-p", fd 0 .sticky false .other),
  ("-pass-exit-codes", fd 0 .exact false .kindOfOutput),
  ("-pie", fd 0 .exact false .linker),
  ("-pipe", fd 0 .exact false .kindOfOutput),
  ("-pthread", fd 0 .exact false .preprocessor),
  ("-r", fd 0 .exact false .linker),
  ("-rdynamic", fd 0 .exact false .linker),
  ("-remap", fd 0 .exact false .preprocessor),
  ("-s", fd 0 .exact false .linker),
  ("-save", fd 0 .sticky false .other),
  ("-shared", fd 0 .both false .linker),
  ("-specs", fd 0 .sticky true .kindOfOutput),
  ("-static", fd 0 .both false .linker),
  ("-static-pie", fd 0 .exact false .linker),
  ("-std", fd 0 .sticky true .other),
  ("-symbolic", fd 0 .exact false .linker),
  ("-tno", fd 0 .sticky false .other),
  ("-traditional", fd 0 .both false .preprocessor),
  ("-trigraphs", fd 0 .exact false .preprocessor),
  ("-u", fd 1 .exact false .linker),
  ("-undef", fd 0 .exact false .preprocessor),
  ("-v", fd 0 .exact false .kindOfOutput),
  ("-wrapper", fd 1 .exact false .kindOfOutput),
  ("-x", fd 1 .exact false .kindOfOutput),
  ("-z", fd 1 .exact false .linker),
  ("@", fd 0 .sticky false .kindOfOutput)]

/-! ## `FlagParser` lookup (parsers.rs lines 133-224) -/

/-- Source `FlagParser::check_equal`: an exact match of the candidate key. -/
def checkEqual (key : String) (cand : String × FlagDefinition) :
    Option (Nat × CompilerFlagType) :=
  if key = "" then none
  else if cand.1 ≠ key then none
  else if ¬ cand.2.consumption.exactAllowed then none
  else some (cand.2.consumption.countFor true, cand.2.type_)

/-- Source `FlagParser::check_partial`: the candidate key and the argument agree on
their first `min` bytes (note that the argument may be *shorter* than the
key and still "match"). -/
def checkSticky (key : String) (cand : String × FlagDefinition) :
    Option (Nat × CompilerFlagType) :=
  if key = "" then none
  else if ¬ cand.2.consumption.stickyAllowed then none
  else
    let kb := strBytes key
    let cb := strBytes cand.1
    let len := min kb.length cb.length
    if kb.take len ≠ cb.take len then none
    else some (cand.2.consumption.countFor false, cand.2.type_)

/-- The lower-bound entry consulted by `lookup`:
`self.flags.iter().skip_while(|(&k, _)| k < key).nth(0)`, the first table
entry whose key is not below the argument. -/
def lowerBoundEntry (m : List (String × FlagDefinition)) (key : String) :
    Option (String × FlagDefinition) :=
  (m.dropWhile (fun e => strLtB e.1 key)).head?

/-- The predecessor entry consulted by `lookup`:
`self.flags.iter().take_while(|(&k, _)| k < key).last()`, the last table
entry whose key is below the argument. -/
def predEntry (m : List (String × FlagDefinition)) (key : String) :
    Option (String × FlagDefinition) :=
  (m.takeWhile (fun e => strLtB e.1 key)).getLast?

/-- Source `FlagParser::lookup`: examine the lower-bound entry (first key not below
the argument) for an exact then a sticky match, then the lower bound's
predecessor (when the lower bound is not the first entry), then the last
entry of the table.  In the source the predecessor is obtained with an
`unwrap` that cannot fail on a sorted map; the `none` fallthrough below is
therefore unreachable there. -/
def lookup (m : List (String × FlagDefinition)) (key : String) :
    Option (Nat × CompilerFlagType) :=
  let fromCandidate :=
    match lowerBoundEntry m key with
    | some cand =>
      match checkEqual key cand with
      | some r => some r
      | none =>
        match checkSticky key cand with
        | some r => some r
        | none =>
          if (m.head?.map Prod.fst) = some cand.1 then none
          else
            match predEntry m key with
            | some prev => checkSticky key prev
            | none => none
    | none => none
  match fromCandidate with
  | some r => some r
  | none =>
    match m.getLast? with
    | some cand => checkSticky key cand
    | none => none

/-! ## Parser combinators (parsers.rs lines 227-401)

A single-flag parser either succeeds with a flag and the remaining input,
fails (the next alternative is tried), or panics (Rust would abort: an index
or `split_at` out of bounds). -/

inductive StepResult where
  | ok (flag : CompilerFlag) (rest : List String)
  | fail
  | panic
  deriving DecidableEq, Repr

/-- Source `parse_result` (parsers.rs line 311): split the input after `count`
tokens.  Rust `split_at` panics when `count` exceeds the input length. -/
def parseResult (input : List String) (count : Nat) (t : CompilerFlagType) : StepResult :=
  if count ≤ input.length then
    .ok { arguments := input.take count, type_ := t } (input.drop count)
  else .panic

/-- Source `FlagParser::parse`. -/
def flagParserStep (input : List String) : StepResult :=
  match input with
  | [] => .fail
  | key :: _ =>
    match lookup flagMap key with
    | some (count, t) => parseResult input (count + 1) t
    | none => .fail

/-- Source `SourceMatcher::EXTENSIONS` (53 entries). -/
def sourceExtensions : List String := [
  ".h", ".hh", ".H", ".hp", ".hxx", ".hpp", ".HPP", ".h++", ".tcc",
  ".c", ".C",
  ".cc", ".CC", ".c++", ".C++", ".cxx", ".cpp", ".cp",
  ".cu",
  ".m", ".mi", ".mm", ".M", ".mii",
  ".i", ".ii",
  ".s", ".S", ".sx", ".asm",
  ".f", ".for", ".ftn", ".F", ".FOR", ".fpp", ".FPP", ".FTN",
  ".f90", ".f95", ".f03", ".f08", ".F90", ".F95", ".F03", ".F08",
  ".go",
  ".brig",
  ".d", ".di", ".dd",
  ".ads", ".abd"]

/-- Source `SourceMatcher::take_extension`: the substring from the final dot,
or the whole string if it has no dot. -/
def takeExtension (file : String) : String :=
  match (file.data.reverse.findIdx? (· = '.')) with
  | none => file
  | some i => ⟨file.data.drop (file.data.length - 1 - i)⟩

/-- Source `SourceMatcher::parse`.  Rust indexes `input[0]` unconditionally; on
empty input that is a panic (unreachable through `Repeat`, whose loop stops
on empty input). -/
def sourceMatcherStep (input : List String) : StepResult :=
  match input with
  | [] => .panic
  | file :: _ =>
    if sourceExtensions.contains (takeExtension file) then
      parseResult input 1 .source
    else .fail

/-- Source `EverythingElseFlagMatcher::parse`: any non-empty token becomes a
`LinkerObjectFile` flag. -/
def everythingElseStep (input : List String) : StepResult :=
  match input with
  | [] => .panic
  | front :: _ =>
    if front ≠ "" then parseResult input 1 .linkerObjectFile
    else .fail

/-- Source `OneOf([FlagParser, SourceMatcher, EverythingElseFlagMatcher])`: the
alternatives are tried in order; a panic in an earlier parser propagates. -/
def oneOfStep (input : List String) : StepResult :=
  match flagParserStep input with
  | .ok f r => .ok f r
  | .panic => .panic
  | .fail =>
    match sourceMatcherStep input with
    | .ok f r => .ok f r
    | .panic => .panic
    | .fail =>
      match everythingElseStep input with
      | .ok f r => .ok f r
      | .panic => .panic
      | .fail => .fail

/-- Outcome of `Repeat::parse` (and of the top-level `parse`). -/
inductive ParseResult where
  | ok (flags : List CompilerFlag)
  | err (remainder : List String)
  | panic
  deriving DecidableEq, Repr

/-- The loop of `Repeat::parse`, with explicit fuel.  Every successful step
consumes at least one token, so `input.length` units of fuel reproduce the
Rust loop exactly: when the fuel reaches zero the input is already empty. -/
def repeatGo : Nat → List String → ParseResult
  | 0, input => if input.isEmpty then .ok [] else .err input
  | fuel + 1, input =>
    if input.isEmpty then .ok []
    else
      match oneOfStep input with
      | .ok flag rest =>
        match repeatGo fuel rest with
        | .ok flags => .ok (flag :: flags)
        | .err r => .err r
        | .panic => .panic
      | .fail => .err input
      | .panic => .panic

/-- Source `Repeat::parse` over the gcc parser alternatives. -/
def repeatParse (input : List String) : ParseResult :=
  repeatGo input.length input

/-- An observed process execution (the `Execution` struct of citnames).
The environment map is embedded as an association list; lookups match the
`HashMap::get` calls of the source. -/
structure Execution where
  executable : String
  arguments : List String
  workingDir : String
  environment : List (String × String)
  deriving DecidableEq, Repr

/-- Rust `HashMap::get` on the embedded environment. -/
def envGet (env : List (String × String)) (key : String) : Option String :=
  (env.find? (fun e => e.1 = key)).map Prod.snd

/-- Top-level `parse` (parsers.rs line 385): fail on an empty argument
vector, then run the repeated parser on the arguments after the program
name. -/
def gccParse (e : Execution) : ParseResult :=
  match e.arguments with
  | [] => .err []
  | _ :: rest => repeatParse rest

/-! ## The gcc-like recognizer core (tool_gcc.rs lines 60-226) -/

/-- Source `CompileSemantic` from semantic.rs. -/
structure CompileSemantic where
  workingDir : String
  compiler : String
  flags : List String
  sources : List String
  output : Option String
  deriving DecidableEq, Repr

/-- Source `Semantic` from semantic.rs. -/
inductive Semantic where
  | queryCompiler
  | preprocess
  | compile (c : CompileSemantic)
  deriving DecidableEq, Repr

/-- Outcome of `compilation` (tool_gcc.rs): a semantic, a recognition
error, or a Rust panic. -/
inductive CompOutcome where
  | sem (s : Semantic)
  | err
  | panic
  deriving DecidableEq, Repr

/-- The head token of a parsed flag; the source indexes `arguments[0]`,
which never fails because every parser consumes at least one token. -/
def CompilerFlag.headArg (f : CompilerFlag) : String :=
  f.arguments.headD ""

/-- Source `is_compiler_query` (tool_gcc.rs line 167). -/
def isCompilerQuery (flags : List CompilerFlag) : Bool :=
  flags.isEmpty || flags.any (fun f => f.type_ = .kindOfOutputInfo)

/-- Source `is_preprocessor` (tool_gcc.rs line 179). -/
def isPreprocessor (flags : List CompilerFlag) : Bool :=
  flags.any (fun f =>
    (f.type_ = .kindOfOutputNoLinking && f.headArg = "-E")
    || (f.type_ = .preprocessorMake && (f.headArg = "-M" || f.headArg = "-MM")))

/-- Source `linking` (tool_gcc.rs line 192): true when no no-linking flag was
seen, i.e. the original command would have linked. -/
def linking (flags : List CompilerFlag) : Bool :=
  ¬ flags.any (fun f => f.type_ = .kindOfOutputNoLinking)

/-- Source `split` (tool_gcc.rs line 198): project the parsed flags into the kept
raw arguments, the source files, and the last output. -/
def splitFlags (flags : List CompilerFlag) : List String × List String × Option String :=
  flags.foldl
    (fun acc f =>
      match f.type_ with
      | .source => (acc.1, acc.2.1 ++ [f.headArg], acc.2.2)
      | .kindOfOutputOutput => (acc.1, acc.2.1, some (f.arguments.getLastD ""))
      | .linker => acc
      | .preprocessorMake => acc
      | .directorySearchLinker => acc
      | _ => (acc.1 ++ f.arguments, acc.2.1, acc.2.2))
    ([], [], none)

/-- The splitter of `std::env::split_paths` on Windows: segments are
separated by unquoted `;`, double quotes protect separators and are
dropped, and the quote state is reset at each separator. -/
def splitPathsGo : List Char → Bool → String → List String
  | [], _, cur => [cur]
  | c :: rest, q, cur =>
    if c = '"' then splitPathsGo rest (!q) cur
    else if c = ';' ∧ ¬ q then cur :: splitPathsGo rest false ""
    else splitPathsGo rest q (cur.push c)

/-- Rust `std::env::split_paths` (Windows semantics), as used by
`flags_from_environment` and `from_search_path`. -/
def splitPaths (s : String) : List String :=
  splitPathsGo s.data false ""

/-- The `inserter` closure of `flags_from_environment`: append a
`flag, directory` pair per path entry (an empty entry becomes `.`). -/
def envInserter (flags : List String) (value : String) (flag : String) : List String :=
  (splitPaths value).foldl
    (fun fs p => fs ++ [flag, if p = "" then "." else p]) flags

/-- Source `flags_from_environment` (tool_gcc.rs line 142). -/
def flagsFromEnvironment (env : List (String × String)) : List String :=
  let flags : List String := []
  let flags := ["CPATH", "C_INCLUDE_PATH", "CPLUS_INCLUDE_PATH"].foldl
    (fun fs v =>
      match envGet env v with
      | some value => envInserter fs value "-I"
      | none => fs) flags
  match envGet env "OBJC_INCLUDE_PATH" with
  | some value => envInserter flags value "-isystem"
  | none => flags

/-- Source `compilation` (tool_gcc.rs line 60): the gcc-like post-parse
classification. -/
def compilation (e : Execution) : CompOutcome :=
  match gccParse e with
  | .err _ => .err
  | .panic => .panic
  | .ok flags =>
    if isCompilerQuery flags then .sem .queryCompiler
    else if isPreprocessor flags then .sem .preprocess
    else
      let (arguments, sources, output) := splitFlags flags
      if sources.isEmpty then .err
      else
        let arguments := if linking flags then "-c" :: arguments else arguments
        let arguments := arguments ++ flagsFromEnvironment e.environment
        .sem (.compile
          { workingDir := e.workingDir
            compiler := e.executable
            flags := arguments
            sources := sources
            output := output })

/-! ## Executable resolver (resolver.rs)

The filesystem is a parameter: `canonicalize` returns the canonical path of
an existing file (or `none` for any I/O error), `exists_` tells whether a
canonical path exists on disk. -/

structure FileSystem where
  canonicalize : String → Option String
  exists_ : String → Bool

/-- Windows path separator characters. -/
def isSep (c : Char) : Bool := c = '\\' || c = '/'

/-- Split a path string on separator characters. -/
def splitSeps (s : String) : List String :=
  (s.data.splitOnP isSep).map (fun l => ⟨l⟩)

/-- The number of `Path::components()` of a (relative, verbatim-free) path:
the non-empty chunks between separators.  What matters for the resolver is
that the empty path has zero components and any non-empty bare file name
has one. -/
def componentsCount (s : String) : Nat :=
  ((splitSeps s).filter (fun c => c ≠ "")).length

/-- Rust `PathBuf::join` on Windows: an absolute right operand replaces the
left one, otherwise the right operand is appended after a `\` separator
(none added when the left side is empty or already ends in a separator). -/
def isAbsolutePath (s : String) : Bool :=
  match s.data with
  | c₁ :: c₂ :: c₃ :: _ => (c₁.isAlpha && c₂ = ':' && isSep c₃) || (isSep c₁ && isSep c₂)
  | [c₁, c₂] => isSep c₁ && isSep c₂
  | _ => false

def joinPath (a b : String) : String :=
  if isAbsolutePath b then b
  else if a = "" then b
  else if (a.data.getLast?.map isSep).getD false then a ++ b
  else a ++ "\\" ++ b

/-- Source `DefaultResolver::from_current_directory`: canonicalize, then require
the result to exist. -/
def fromCurrentDirectory (fs : FileSystem) (file : String) : Option String :=
  match fs.canonicalize file with
  | none => none
  | some r => if fs.exists_ r then some r else none

/-- The search loop of `from_search_path`: skip empty entries, return the
first canonicalized join that exists. -/
def searchLoop (fs : FileSystem) (file : String) : List String → Option String
  | [] => none
  | p :: rest =>
    if p = "" then searchLoop fs file rest
    else
      match fromCurrentDirectory fs (joinPath p file) with
      | some r => some r
      | none => searchLoop fs file rest

/-- Source `DefaultResolver::from_search_path` (resolver.rs line 76).  Note the
guard: any file name with a non-zero component count — that is, any
non-empty name at all — is resolved against the current directory, and only
the empty name ever reaches the search loop. -/
def fromSearchPath (fs : FileSystem) (file : String) (searchPath : String) : Option String :=
  if componentsCount file ≠ 0 then fromCurrentDirectory fs file
  else searchLoop fs file (splitPaths searchPath)

/-! ## ccache/distcc wrapper (tool_wrapper.rs) -/

/-- Rust `Path::file_name` for the paths that occur here: the final
non-empty chunk between separators. -/
def fileName (s : String) : Option String :=
  ((splitSeps s).filter (fun c => c ≠ "")).getLast?

/-- Rust `Path::file_stem`: the file name up to its last dot (a leading dot
does not count). -/
def fileStem (s : String) : Option String :=
  (fileName s).map (fun name =>
    match (name.data.drop 1).reverse.findIdx? (· = '.') with
    | none => name
    | some i => ⟨name.data.take (name.data.length - 1 - i)⟩)

/-- Source `is_ccache_call`. -/
def isCcacheCall (program : String) : Bool :=
  fileStem program = some "ccache"

/-- Source `looks_like_ccache_parameter`: empty, or the first character is `-`. -/
def looksLikeCcacheParameter (candidate : String) : Bool :=
  match candidate.data.head? with
  | some first => first = '-'
  | none => true

/-- Source `is_ccache_query`. -/
def isCcacheQuery (arguments : List String) : Bool :=
  arguments.length ≤ 1 || looksLikeCcacheParameter (arguments.getD 1 "")

/-- Source `is_distcc_call`. -/
def isDistccCall (program : String) : Bool :=
  fileStem program = some "distcc"

/-- The distcc meta-flag list. -/
def distccFlags : List String :=
  ["--help", "--version", "--show-hosts", "--scan-includes", "-j", "--show-principal"]

/-- Source `looks_like_distcc_parameter`: empty, or one of the six meta-flags —
note there is no leading-dash test here, unlike for ccache. -/
def looksLikeDistccParameter (candidate : String) : Bool :=
  candidate = "" || candidate ∈ distccFlags

/-- Source `is_distcc_query`. -/
def isDistccQuery (arguments : List String) : Bool :=
  arguments.length ≤ 1 || looksLikeDistccParameter (arguments.getD 1 "")

/-- Source `remove_wrapper_with_resolver`: resolve the second argument against the
target's `PATH` when possible, otherwise fall back to the raw second
argument; either way drop the first argument.  `none` models the panics of
the fallback (`remove(0)` on an empty vector, `first().unwrap()` on a
vector of one element); both are unreachable from `recognize`, which only
unwraps non-query argument vectors of length at least two. -/
def removeWrapper (fs : FileSystem) (e : Execution) : Option Execution :=
  let resolved : Option String :=
    match envGet e.environment "PATH" with
    | none => none
    | some path =>
      match (e.arguments.drop 1).head? with
      | none => none
      | some program => fromSearchPath fs program path
  match resolved with
  | some candidate =>
    some { e with arguments := e.arguments.drop 1, executable := candidate }
  | none =>
    match e.arguments with
    | [] => none
    | _ :: tail =>
      match tail.head? with
      | none => none
      | some prog => some { e with arguments := tail, executable := prog }

/-- Recognizer verdict: not applicable, a semantic, an error, or a panic. -/
inductive RecogOutcome where
  | notApplicable
  | sem (s : Semantic)
  | err
  | panic
  deriving DecidableEq, Repr

/-- The unwrap-and-recurse branch of `ToolWrapper::recognize`. -/
def unwrapAndCompile (fs : FileSystem) (e : Execution) : RecogOutcome :=
  match removeWrapper fs e with
  | none => .panic
  | some e' =>
    match compilation e' with
    | .sem s => .sem s
    | .err => .err
    | .panic => .panic

/-- Source `ToolWrapper::recognize`. -/
def wrapperRecognize (fs : FileSystem) (e : Execution) : RecogOutcome :=
  if isCcacheCall e.executable then
    if isCcacheQuery e.arguments then .sem .queryCompiler
    else unwrapAndCompile fs e
  else if isDistccCall e.executable then
    if isDistccQuery e.arguments then .sem .queryCompiler
    else unwrapAndCompile fs e
  else .notApplicable

/-! ## Entry synthesis (semantic.rs `Semantic::into_entries`) -/

/-- A compilation-database `Entry`. -/
structure Entry where
  file : String
  directory : String
  output : Option String
  arguments : List String
  deriving DecidableEq, Repr

/-- The `abspath` closure of `into_entries`: join relative paths onto the
working directory. -/
def abspath (workingDir path : String) : String :=
  if isAbsolutePath path then path else joinPath workingDir path

/-- Source `Semantic::into_entries`: one entry per source; `arguments` is the
compiler, the flags, `-o <output>` when an output is present (the raw,
non-absolutized output), and the raw source. -/
def intoEntries : Semantic → Option (List Entry)
  | .queryCompiler => none
  | .preprocess => none
  | .compile c => some (c.sources.map (fun source =>
      { file := abspath c.workingDir source
        directory := c.workingDir
        output := c.output.map (abspath c.workingDir)
        arguments := c.compiler :: c.flags
          ++ (match c.output with
              | some o => ["-o", o]
              | none => [])
          ++ [source] }))

/-! ## Duplicate filter (output.rs lines 250-298)

The fingerprint combines the reversed file path with a hash of the
comma-joined reversed argument tail.  The standard library's
`DefaultHasher` algorithm is deliberately unspecified, so the hash is a
parameter here; every theorem below holds for each choice of it. -/

/-- Comma-join of `itertools::format(",")`. -/
def joinComma (xs : List String) : String :=
  String.intercalate "," xs

/-- Source `DuplicateFilter::hash`, parametric in the `DefaultHasher` function. -/
def fingerprint (h : String → Nat) (e : Entry) : String :=
  toString (h (joinComma (e.arguments.drop 1).reverse)) ++ ":" ++ ⟨e.file.data.reverse⟩

/-- The stateful filter pass: keep an entry exactly when its fingerprint
was not seen before (`HashSet::insert` returning true). -/
def dedupGo (h : String → Nat) (seen : List String) : List Entry → List Entry
  | [] => []
  | e :: rest =>
    let f := fingerprint h e
    if f ∈ seen then dedupGo h seen rest
    else e :: dedupGo h (f :: seen) rest

/-- Source `DuplicateFilter` applied to a stream of entries. -/
def dedupFilter (h : String → Nat) (entries : List Entry) : List Entry :=
  dedupGo h [] entries

/-! ## Execution logger (execution_logger.rs)

The operating system is an oracle: whether opening a pid succeeds, the
snapshot of a newly created process, and the exit code of an exiting one.
`Option` at the outcome level encodes a Rust panic (`unwrap`/`assert!`). -/

structure CommandRec where
  program : String
  arguments : List String
  environment : List (String × String)
  workingDir : String
  deriving DecidableEq, Repr

inductive EventKindR where
  | start
  | stop (status : Nat)
  deriving DecidableEq, Repr

structure ExecutionRec where
  command : CommandRec
  events : List EventKindR
  pid : Nat
  ppid : Nat
  deriving DecidableEq, Repr

/-- The access rights requested by the logger. -/
inductive Access where
  | vmReadQuery
  | queryInformation
  deriving DecidableEq, Repr

structure OsOracle where
  openOk : Nat → Access → Bool
  snapshot : Nat → Option (CommandRec × Nat)
  exitCode : Nat → Option Nat

structure LoggerState where
  extantProcesses : List (Nat × Nat)
  executions : List (Nat × ExecutionRec)
  nextId : Nat
  log : List String
  deriving Repr

inductive DebugEventR where
  | createProcess (pid : Nat)
  | exitProcess (pid : Nat)
  | other (pid : Nat)
  deriving DecidableEq, Repr

inductive DebugResponse where
  | continueNotHandled
  | exitDetachNotHandled
  deriving DecidableEq, Repr

/-- Source `ExecutionLogger::add_execution`: `ok` on success, `err` with the
logged message on an open/snapshot failure, `panic` when one of the
`assert!`ed double insertions fires. -/
inductive AddOutcome where
  | ok (st : LoggerState)
  | err (msg : String)
  | panic

def addExecution (os : OsOracle) (st : LoggerState) (pid : Nat) : AddOutcome :=
  if ¬ os.openOk pid .vmReadQuery then .err "open failed"
  else
    match os.snapshot pid with
    | none => .err "snapshot failed"
    | some (cmd, ppid) =>
      if (st.executions.find? (fun e => e.1 = st.nextId)).isSome then .panic
      else if (st.extantProcesses.find? (fun e => e.1 = pid)).isSome then .panic
      else .ok
        { st with
          executions := st.executions ++
            [(st.nextId, { command := cmd, events := [.start], pid := pid, ppid := ppid })]
          extantProcesses := st.extantProcesses ++ [(pid, st.nextId)]
          nextId := st.nextId + 1 }

/-- Source `ExecutionLogger::finish_execution` (execution_logger.rs line 178).
Every step is an `unwrap`: failing to open the exiting process, an unknown
pid, a missing execution record, or a failing exit-code read all panic
(`none`), they are not logged-and-skipped. -/
def finishExecution (os : OsOracle) (st : LoggerState) (pid : Nat) : Option LoggerState :=
  if ¬ os.openOk pid .queryInformation then none
  else
    match (st.extantProcesses.find? (fun e => e.1 = pid)).map Prod.snd with
    | none => none
    | some execId =>
      match st.executions.find? (fun e => e.1 = execId) with
      | none => none
      | some (_, record) =>
        match os.exitCode pid with
        | none => none
        | some status =>
          some
            { st with
              executions := st.executions.map (fun e =>
                if e.1 = execId then
                  (e.1, { record with events := record.events ++ [.stop status] })
                else e)
              extantProcesses := st.extantProcesses.filter (fun e => e.1 ≠ pid) }

/-- Source `ExecutionLogger::handle_event`: `none` is a panic that aborts the
program. -/
def handleEvent (os : OsOracle) (st : LoggerState) (event : DebugEventR) :
    Option (LoggerState × DebugResponse) :=
  match event with
  | .createProcess pid =>
    match addExecution os st pid with
    | .ok st' => some (st', .continueNotHandled)
    | .err msg => some ({ st with log := st.log ++ [msg] }, .continueNotHandled)
    | .panic => none
  | .exitProcess pid =>
    match finishExecution os st pid with
    | none => none
    | some st' =>
      if st'.extantProcesses.isEmpty then some (st', .exitDetachNotHandled)
      else some (st', .continueNotHandled)
  | .other _ => some (st, .continueNotHandled)

/-! ## Derived views used by the theorems below -/

/-- The three table entries `lookup` ever consults. -/
def lookupCandidates (m : List (String × FlagDefinition)) (key : String) :
    List (String × FlagDefinition) :=
  (lowerBoundEntry m key).toList ++ (predEntry m key).toList ++ m.getLast?.toList

/-- Modelled from the spec's words (claim C4): "an exact key match beats
any partial (prefix) match, and among all table keys that are prefixes of
the argument and allow partial matching, the longest such key's definition
is applied" (ties broken by key order). -/
def claimLookup (m : List (String × FlagDefinition)) (key : String) :
    Option (Nat × CompilerFlagType) :=
  match m.find? (fun e => e.1 == key && e.2.consumption.exactAllowed) with
  | some e => some (e.2.consumption.countFor true, e.2.type_)
  | none =>
    let cands := m.filter
      (fun e => e.2.consumption.stickyAllowed && bytePre (strBytes e.1) (strBytes key))
    let best := cands.foldl
      (fun best e =>
        match best with
        | none => some e
        | some b => if e.1.length > b.1.length then some e else best)
      none
    best.map (fun e => (e.2.consumption.countFor false, e.2.type_))

/-- Modelled from the spec's words (claim C7): the `flag, entry` pairs for
one environment variable. -/
def specPairs (env : List (String × String)) (v flag : String) : List String :=
  match envGet env v with
  | none => []
  | some value => (splitPaths value).flatMap (fun p => [flag, if p = "" then "." else p])

/-- Modelled from the spec's words (claim C7): `-I` pairs for `CPATH`,
`C_INCLUDE_PATH`, `CPLUS_INCLUDE_PATH` in that order, then `-isystem`
pairs for `OBJC_INCLUDE_PATH`, entries in original order. -/
def specEnvFlags (env : List (String × String)) : List String :=
  (["CPATH", "C_INCLUDE_PATH", "CPLUS_INCLUDE_PATH"].flatMap (fun v => specPairs env v "-I"))
    ++ specPairs env "OBJC_INCLUDE_PATH" "-isystem"

/-- The fingerprint set accumulated by the duplicate filter over a stream. -/
def dedupSeen (h : String → Nat) (seen : List String) : List Entry → List String
  | [] => seen
  | e :: rest =>
    let f := fingerprint h e
    if f ∈ seen then dedupSeen h seen rest
    else dedupSeen h (f :: seen) rest

/-! ## Facts about the flag map -/

/-- The spelled-out flag map is exactly the `BTreeMap` collect of the
source-order table. -/
theorem flagMap_is_built : flagMap = flagMapBuilt := by decide

/-- The flag map is strictly sorted in the byte-wise key order. -/
theorem flagMap_sorted : flagMap.Pairwise (fun a b => strLtB a.1 b.1 = true) := by decide

/-! ## C5 -/

/-- C5: recognizing argv `["cc","-L.","-lthing","-o","exe","source.c"]`
(gcc-like executable, empty environment) yields `Compile` with flags
exactly `["-c"]`, sources exactly `["source.c"]`, and output `"exe"`:
the linker-category flags are dropped and `-c` is prepended because no
`KindOfOutputNoLinking` flag was seen. -/
theorem c5_linker_flags_filtered :
    compilation
      { executable := "/usr/bin/cc"
        arguments := ["cc", "-L.", "-lthing", "-o", "exe", "source.c"]
        workingDir := "/home/user/project"
        environment := [] }
      = .sem (.compile
        { workingDir := "/home/user/project"
          compiler := "/usr/bin/cc"
          flags := ["-c"]
          sources := ["source.c"]
          output := some "exe" }) := by decide

/-! ## C1 -/

/-- C1 counterexample: the argument vector `["cc","-E","source.c"]` is
accepted by the parser, contains the literal token `-E`, and contains no
flag of category `KindOfOutputInfo`, yet it is classified as `Compile`
(with `-E` kept among the flags as an `Other` token), not as `Preprocess`:
the duplicate `-E` table entry of category `Other` overwrote the
`KindOfOutputNoLinking` one when the table was collected into the map. -/
theorem c1_counterexample :
    gccParse
        { executable := "/usr/bin/cc"
          arguments := ["cc", "-E", "source.c"]
          workingDir := "/home/user/project"
          environment := [] }
      = .ok [{ arguments := ["-E"], type_ := .other },
             { arguments := ["source.c"], type_ := .source }]
    ∧ compilation
        { executable := "/usr/bin/cc"
          arguments := ["cc", "-E", "source.c"]
          workingDir := "/home/user/project"
          environment := [] }
      = .sem (.compile
        { workingDir := "/home/user/project"
          compiler := "/usr/bin/cc"
          flags := ["-c", "-E"]
          sources := ["source.c"]
          output := none })
    ∧ (CompilerFlagType.other ≠ .kindOfOutputInfo ∧ CompilerFlagType.source ≠ .kindOfOutputInfo)
    := by decide

/-! ## C4 -/

/-- C4 counterexample: for the argument `-fp` the table lookup applies the
definition of `-fplugin` (category `KindOfOutput`, a key that is *not* a
prefix of the argument, matching only on the first `min`-length bytes),
while the longest table key that is a prefix of `-fp` and allows partial
matching is `-f` (category `Other`); the lookup the spec describes and the
lookup the code performs disagree here. -/
theorem c4_counterexample :
    lookup flagMap "-fp" = some (0, .kindOfOutput)
    ∧ claimLookup flagMap "-fp" = some (0, .other)
    ∧ lookup flagMap "-fp" ≠ claimLookup flagMap "-fp" := by decide

/-! ## C10 -/

/-- C10 counterexample: the argument vector `["cc","-o","","source.c"]`
contains an empty token after the program name, yet the parser accepts it
(the empty token is consumed as the argument of `-o`) and the recognizer
yields a `Compile` semantic with output `""`. -/
theorem c10_counterexample :
    gccParse
        { executable := "/usr/bin/cc"
          arguments := ["cc", "-o", "", "source.c"]
          workingDir := "/home/user/project"
          environment := [] }
      = .ok [{ arguments := ["-o", ""], type_ := .kindOfOutputOutput },
             { arguments := ["source.c"], type_ := .source }]
    ∧ compilation
        { executable := "/usr/bin/cc"
          arguments := ["cc", "-o", "", "source.c"]
          workingDir := "/home/user/project"
          environment := [] }
      = .sem (.compile
        { workingDir := "/home/user/project"
          compiler := "/usr/bin/cc"
          flags := ["-c"]
          sources := ["source.c"]
          output := some "" }) := by decide

/-! ## C6 -/

/-- C6 counterexample: a distcc execution whose second argument is `-c`
(which begins with `-` and is not one of the six distcc meta-flags) is
*not* classified as `QueryCompiler`: `looks_like_distcc_parameter` has no
leading-dash test, so the execution is unwrapped and recognized as a
`Compile`. -/
theorem c6_counterexample :
    isDistccCall "distcc" = true
    ∧ (["distcc", "-c", "foo.c"].getD 1 "").data.head? = some '-'
    ∧ wrapperRecognize
        { canonicalize := fun _ => none, exists_ := fun _ => false }
        { executable := "distcc"
          arguments := ["distcc", "-c", "foo.c"]
          workingDir := "wd"
          environment := [] }
      = .sem (.compile
        { workingDir := "wd"
          compiler := "-c"
          flags := ["-c"]
          sources := ["foo.c"]
          output := none }) := by decide

/-! ## C2 -/

/-- C2 counterexample: with an operating system on which opening pid 7
fails, handling the `ExitProcess` event for pid 7 panics (the `unwrap` in
`finish_execution`) — the handler does not log and continue, it aborts the
program. -/
theorem c2_counterexample :
    handleEvent
      { openOk := fun _ _ => false, snapshot := fun _ => none, exitCode := fun _ => none }
      { extantProcesses := [(7, 0)]
        executions := [(0,
          { command :=
              { program := "p", arguments := [], environment := [], workingDir := "w" }
            events := [.start], pid := 7, ppid := 1 })]
        nextId := 1
        log := [] }
      (.exitProcess 7)
    = none := by rfl

/-! ## C3 -/

/-- C3: `from_search_path` never searches the path for a bare file name.
The guard `file.components().count() != 0` holds for every non-empty file
name, so a bare name such as `cc` is resolved against the current
directory for *every* search path; on a filesystem where `C:\bin\cc`
exists (and `cc` does not resolve from the current directory) the function
returns `NotFound` even though the search loop it never reaches would have
found `C:\bin\cc`. -/
theorem c3_search_path_is_dead_code :
    (∀ (fs : FileSystem) (searchPath : String),
        fromSearchPath fs "cc" searchPath = fromCurrentDirectory fs "cc")
    ∧ fromSearchPath
        { canonicalize := fun s => if s = "C:\\bin\\cc" then some "C:\\bin\\cc" else none
          exists_ := fun s => s = "C:\\bin\\cc" }
        "cc" "C:\\bin" = none
    ∧ searchLoop
        { canonicalize := fun s => if s = "C:\\bin\\cc" then some "C:\\bin\\cc" else none
          exists_ := fun s => s = "C:\\bin\\cc" }
        "cc" (splitPaths "C:\\bin") = some "C:\\bin\\cc" := by
  refine ⟨fun fs searchPath => ?_, by rfl, by rfl⟩
  have h : componentsCount "cc" = 1 := by rfl
  simp [fromSearchPath, h]

/-- C2 amended: on an `ExitProcess` event a failure to open the exiting
process, or a failure to read its exit code, panics (`unwrap`) and aborts
the program; only a failed process snapshot on `CreateProcess` is logged
and lets the event loop continue. -/
theorem c2_amended (os : OsOracle) (st : LoggerState) (pid : Nat) :
    (os.openOk pid .queryInformation = false →
        handleEvent os st (.exitProcess pid) = none)
    ∧ (os.exitCode pid = none →
        handleEvent os st (.exitProcess pid) = none)
    ∧ (os.openOk pid .vmReadQuery = false →
        handleEvent os st (.createProcess pid)
          = some ({ st with log := st.log ++ ["open failed"] }, .continueNotHandled)) := by
  refine ⟨fun hopen => ?_, fun hexit => ?_, fun hopen => ?_⟩
  · simp [handleEvent, finishExecution, hopen]
  · by_cases hopen : os.openOk pid .queryInformation
    · simp only [handleEvent, finishExecution, hopen, not_true_eq_false, if_false]
      rcases h1 : (st.extantProcesses.find? (fun e => e.1 = pid)).map Prod.snd with _ | execId
      · simp [h1]
      · rcases h2 : st.executions.find? (fun e => e.1 = execId) with _ | pair
        · simp [h1, h2]
        · simp [h1, h2, hexit]
    · simp [handleEvent, finishExecution, hopen]
  · simp [handleEvent, addExecution, hopen]

/-- C2 amended witness: the concrete failing oracle aborts on exit and
logs-and-continues on create. -/
theorem c2_amended_witness :
    (handleEvent
      { openOk := fun _ _ => false, snapshot := fun _ => none, exitCode := fun _ => none }
      { extantProcesses := [(7, 0)], executions := [], nextId := 1, log := [] }
      (.exitProcess 7) = none)
    ∧ (handleEvent
      { openOk := fun _ _ => false, snapshot := fun _ => none, exitCode := fun _ => none }
      { extantProcesses := [(7, 0)], executions := [], nextId := 1, log := [] }
      (.createProcess 9)
      = some ({ extantProcesses := [(7, 0)], executions := [], nextId := 1,
                log := ["open failed"] }, .continueNotHandled)) :=
  ⟨(c2_amended
      { openOk := fun _ _ => false, snapshot := fun _ => none, exitCode := fun _ => none }
      { extantProcesses := [(7, 0)], executions := [], nextId := 1, log := [] } 7).1 rfl,
   (c2_amended
      { openOk := fun _ _ => false, snapshot := fun _ => none, exitCode := fun _ => none }
      { extantProcesses := [(7, 0)], executions := [], nextId := 1, log := [] } 9).2.2 rfl⟩

/-- C6 amended: a ccache execution is classified as `QueryCompiler` when
the argument vector has length at most 1, or its second argument begins
with `-` or is empty; a distcc execution is classified as `QueryCompiler`
when the argument vector has length at most 1, or its second argument is
empty or one of the six distcc meta-flags — a distcc second argument that
merely begins with `-` is unwrapped instead (see the counterexample). -/
theorem c6_amended (fs : FileSystem) (e : Execution) :
    (isCcacheCall e.executable = true →
      (e.arguments.length ≤ 1 ∨ (e.arguments.getD 1 "").data.head? = some '-'
        ∨ e.arguments.getD 1 "" = "") →
      wrapperRecognize fs e = .sem .queryCompiler)
    ∧ (isDistccCall e.executable = true →
      (e.arguments.length ≤ 1 ∨ e.arguments.getD 1 "" = ""
        ∨ e.arguments.getD 1 "" ∈ distccFlags) →
      wrapperRecognize fs e = .sem .queryCompiler) := by
  constructor
  · intro hcc hcond
    have hq : isCcacheQuery e.arguments = true := by
      rcases hcond with h | h | h
      · simp [isCcacheQuery, h]
      · simp only [List.getD_eq_getElem?_getD] at h
        simp [isCcacheQuery, looksLikeCcacheParameter, h]
      · simp only [List.getD_eq_getElem?_getD] at h
        simp [isCcacheQuery, looksLikeCcacheParameter, h]
    simp [wrapperRecognize, hcc, hq]
  · intro hdc hcond
    have hstem : fileStem e.executable = some "distcc" := by
      simpa [isDistccCall] using hdc
    have hcc : isCcacheCall e.executable = false := by
      simp [isCcacheCall, hstem]
    have hq : isDistccQuery e.arguments = true := by
      rcases hcond with h | h | h
      · simp [isDistccQuery, h]
      · simp only [List.getD_eq_getElem?_getD] at h
        simp [isDistccQuery, looksLikeDistccParameter, h]
      · simp only [List.getD_eq_getElem?_getD] at h
        simp [isDistccQuery, looksLikeDistccParameter, h]
    simp [wrapperRecognize, hcc, hdc, hq]

/-- C6 amended witness: `ccache -c` and `distcc -j` are both classified as
compiler queries. -/
theorem c6_amended_witness :
    (wrapperRecognize
      { canonicalize := fun _ => none, exists_ := fun _ => false }
      { executable := "ccache", arguments := ["ccache", "-c"],
        workingDir := "wd", environment := [] } = .sem .queryCompiler)
    ∧ (wrapperRecognize
      { canonicalize := fun _ => none, exists_ := fun _ => false }
      { executable := "distcc", arguments := ["distcc", "-j"],
        workingDir := "wd", environment := [] } = .sem .queryCompiler) :=
  ⟨(c6_amended
      { canonicalize := fun _ => none, exists_ := fun _ => false }
      { executable := "ccache", arguments := ["ccache", "-c"],
        workingDir := "wd", environment := [] }).1 (by decide)
      (Or.inr (Or.inl (by decide))),
   (c6_amended
      { canonicalize := fun _ => none, exists_ := fun _ => false }
      { executable := "distcc", arguments := ["distcc", "-j"],
        workingDir := "wd", environment := [] }).2 (by decide)
      (Or.inr (Or.inr (by decide)))⟩

/-! ## C9 -/

/-- Appending streams: the filter of a concatenation is the filter of the
first part followed by the filter of the second under the accumulated
fingerprint set. -/
theorem dedupGo_append (h : String → Nat) (xs ys : List Entry) (seen : List String) :
    dedupGo h seen (xs ++ ys) = dedupGo h seen xs ++ dedupGo h (dedupSeen h seen xs) ys := by
  induction xs generalizing seen with
  | nil => simp [dedupGo, dedupSeen]
  | cons e rest ih =>
    by_cases hf : fingerprint h e ∈ seen
    · simp [dedupGo, dedupSeen, hf, ih]
    · simp [dedupGo, dedupSeen, hf, ih]

/-- The accumulated fingerprint set only grows. -/
theorem dedupSeen_mono (h : String → Nat) (xs : List Entry) (seen : List String)
    (f : String) (hf : f ∈ seen) : f ∈ dedupSeen h seen xs := by
  induction xs generalizing seen with
  | nil => simpa [dedupSeen] using hf
  | cons e rest ih =>
    by_cases he : fingerprint h e ∈ seen
    · simpa [dedupSeen, he] using ih _ hf
    · simp only [dedupSeen, he, if_neg, if_false]
      exact ih _ (List.mem_cons_of_mem _ hf)

/-- After a pass, the fingerprint of every processed entry is in the set. -/
theorem dedupSeen_mem (h : String → Nat) (xs : List Entry) (seen : List String)
    (e : Entry) (he : e ∈ xs) : fingerprint h e ∈ dedupSeen h seen xs := by
  induction xs generalizing seen with
  | nil => cases he
  | cons x rest ih =>
    by_cases hx : fingerprint h x ∈ seen
    · have hstep : dedupSeen h seen (x :: rest) = dedupSeen h seen rest := by
        simp [dedupSeen, hx]
      rw [hstep]
      rcases List.mem_cons.mp he with heq | hmem
      · rw [heq]; exact dedupSeen_mono h rest seen _ hx
      · exact ih seen hmem
    · have hstep : dedupSeen h seen (x :: rest)
          = dedupSeen h (fingerprint h x :: seen) rest := by
        simp [dedupSeen, hx]
      rw [hstep]
      rcases List.mem_cons.mp he with heq | hmem
      · rw [heq]; exact dedupSeen_mono h rest _ _ (List.mem_cons_self _ _)
      · exact ih _ hmem

/-- A pass over entries whose fingerprints are all already seen keeps
nothing. -/
theorem dedupGo_all_seen (h : String → Nat) (xs : List Entry) (seen : List String)
    (hall : ∀ e ∈ xs, fingerprint h e ∈ seen) : dedupGo h seen xs = [] := by
  induction xs with
  | nil => simp [dedupGo]
  | cons e rest ih =>
    have he : fingerprint h e ∈ seen := hall e (List.mem_cons_self _ _)
    simp only [dedupGo, he, if_true]
    exact ih (fun x hx => hall x (List.mem_cons_of_mem _ hx))

/-- C9: the duplicate filter is idempotent — for every stream of entries
(and every choice of the unspecified `DefaultHasher` function) filtering
the concatenation of the stream with itself yields exactly the filtered
stream: the first occurrence of each fingerprint wins and the second copy
contributes nothing. -/
theorem c9_dedup_idempotent (h : String → Nat) (entries : List Entry) :
    dedupFilter h (entries ++ entries) = dedupFilter h entries := by
  unfold dedupFilter
  rw [dedupGo_append]
  rw [dedupGo_all_seen h entries _ (fun e he => dedupSeen_mem h entries [] e he)]
  simp

/-! ## C10 -/

/-- Source-shaped helper fact: no sub-parser accepts an empty head token,
so the `OneOf` step fails there. -/
theorem oneOfStep_empty_head (rest : List String) :
    oneOfStep ("" :: rest) = .fail := by
  have hl : lookup flagMap "" = none := by rfl
  simp [oneOfStep, flagParserStep, hl, sourceMatcherStep, takeExtension,
    everythingElseStep, sourceExtensions]

/-- C10 amended: an empty token *in the position where a new flag is
expected* — in particular an empty token immediately after the program
name — makes the parser fail (no flag parser, source matcher, or catch-all
consumes an empty head token, and `Repeat` fails on the non-empty leftover
input), so the execution is reported recognized-with-error and never
yields a `Semantic`.  An empty token consumed as the trailing argument of
a count-consuming flag such as `-o` is accepted instead (see the
counterexample). -/
theorem c10_amended (e : Execution) (prog : String) (rest : List String)
    (h : e.arguments = prog :: "" :: rest) :
    gccParse e = .err ("" :: rest) ∧ compilation e = .err := by
  have hparse : gccParse e = .err ("" :: rest) := by
    simp only [gccParse, h]
    simp [repeatParse, repeatGo, oneOfStep_empty_head]
  exact ⟨hparse, by simp [compilation, hparse]⟩

/-- C10 amended witness: argv `["cc", "", "source.c"]` is rejected by the
parser and the recognizer reports an error. -/
theorem c10_amended_witness :
    gccParse
      { executable := "/usr/bin/cc"
        arguments := ["cc", "", "source.c"]
        workingDir := "wd"
        environment := [] } = .err ["", "source.c"]
    ∧ compilation
      { executable := "/usr/bin/cc"
        arguments := ["cc", "", "source.c"]
        workingDir := "wd"
        environment := [] } = .err :=
  c10_amended
    { executable := "/usr/bin/cc"
      arguments := ["cc", "", "source.c"]
      workingDir := "wd"
      environment := [] } "cc" ["source.c"] rfl

/-! ## C7 -/

/-- The `inserter` closure emits its pairs after whatever flags were
already accumulated. -/
theorem envInserter_eq (value flag : String) (fs : List String) :
    envInserter fs value flag
      = fs ++ (splitPaths value).flatMap (fun p => [flag, if p = "" then "." else p]) := by
  unfold envInserter
  generalize splitPaths value = l
  induction l generalizing fs with
  | nil => simp
  | cons p rest ih => simp [List.foldl_cons, ih, List.flatMap_cons]

/-- C7: after parsing a compile, for each of `CPATH`, `C_INCLUDE_PATH`,
`CPLUS_INCLUDE_PATH` present in the target process environment the value is
split on the OS path separator (the Windows `split_paths` convention) and a
pair `-I <entry>` is appended per entry (an empty entry yields `-I .`);
for `OBJC_INCLUDE_PATH` a pair `-isystem <entry>` is appended; variables
are processed in the listed order, entries in their original order, and
all the pairs are appended after the compile flags. -/
theorem c7_environment_include_flags :
    (∀ env : List (String × String), flagsFromEnvironment env = specEnvFlags env)
    ∧ (∀ (e : Execution) (c : CompileSemantic),
        compilation e = .sem (.compile c) →
        ∃ core, c.flags = core ++ flagsFromEnvironment e.environment) := by
  constructor
  · intro env
    unfold flagsFromEnvironment specEnvFlags specPairs
    cases h₁ : envGet env "CPATH" <;>
      cases h₂ : envGet env "C_INCLUDE_PATH" <;>
        cases h₃ : envGet env "CPLUS_INCLUDE_PATH" <;>
          cases h₄ : envGet env "OBJC_INCLUDE_PATH" <;>
            simp [h₁, h₂, h₃, h₄, envInserter_eq, List.append_assoc]
  · intro e c h
    unfold compilation at h
    rcases hp : gccParse e with flags | r | _ <;> rw [hp] at h <;> dsimp only at h
    · by_cases hq : isCompilerQuery flags = true
      · rw [if_pos hq] at h; simp at h
      · rw [if_neg hq] at h
        by_cases hpre : isPreprocessor flags = true
        · rw [if_pos hpre] at h; simp at h
        · rw [if_neg hpre] at h
          rcases hs : splitFlags flags with ⟨arguments, rest⟩
          rcases rest with ⟨sources, output⟩
          rw [hs] at h; dsimp only at h
          by_cases hsrc : sources.isEmpty = true
          · rw [if_pos hsrc] at h; simp at h
          · rw [if_neg hsrc] at h
            injection h with h1
            injection h1 with h2
            subst h2
            exact ⟨_, rfl⟩
    · simp at h
    · simp at h

/-- C7 witness: the literal scenario — argv `["cc","-c","source.c"]` with
`CPATH=/u/p1;/u/p2` and `C_INCLUDE_PATH=;/u/p3` — yields compile flags
that end with the environment-derived pairs
`-I /u/p1 -I /u/p2 -I . -I /u/p3` after the core flag `-c`. -/
theorem c7_environment_include_flags_witness :
    ∃ core,
      ["-c", "-I", "/u/p1", "-I", "/u/p2", "-I", ".", "-I", "/u/p3"]
        = core ++ flagsFromEnvironment
            [("CPATH", "/u/p1;/u/p2"), ("C_INCLUDE_PATH", ";/u/p3")] :=
  c7_environment_include_flags.2
    { executable := "/usr/bin/cc"
      arguments := ["cc", "-c", "source.c"]
      workingDir := "/home/user/project"
      environment := [("CPATH", "/u/p1;/u/p2"), ("C_INCLUDE_PATH", ";/u/p3")] }
    { workingDir := "/home/user/project"
      compiler := "/usr/bin/cc"
      flags := ["-c", "-I", "/u/p1", "-I", "/u/p2", "-I", ".", "-I", "/u/p3"]
      sources := ["source.c"]
      output := none }
    (by decide)

/-! ## C8 -/

/-- C8 counterexample: `into_entries` is applied to an arbitrary `Compile`
semantic, and nothing in it establishes non-emptiness — a `Compile` with
empty working directory, compiler and source yields an entry whose
mandatory `file` and `directory` fields are empty strings (and whose
`arguments` are two empty strings). -/
theorem c8_counterexample :
    intoEntries (.compile
      { workingDir := "", compiler := "", flags := [], sources := [""], output := none })
      = some [{ file := "", directory := "", output := none, arguments := ["", ""] }] := by
  decide

/-- A left-non-empty string append is non-empty. -/
theorem append_ne_empty_left (a b : String) (ha : a ≠ "") : a ++ b ≠ "" := by
  intro hab
  apply ha
  have hdata : a.data ++ b.data = [] := congrArg String.data hab
  rcases List.append_eq_nil.mp hdata with ⟨h1, _⟩
  cases a
  simp_all

/-- The absolutized path of a non-empty source against a non-empty working
directory is non-empty. -/
theorem abspath_ne_empty (wd s : String) (hwd : wd ≠ "") (hs : s ≠ "") :
    abspath wd s ≠ "" := by
  unfold abspath joinPath
  by_cases habs : isAbsolutePath s = true
  · simpa [habs] using hs
  · simp only [habs, if_false, Bool.false_eq_true, if_neg, not_false_eq_true]
    by_cases hwd' : wd = ""
    · exact absurd hwd' hwd
    · simp only [hwd', if_false, ite_false]
      by_cases hsep : (wd.data.getLast?.map isSep).getD false = true
      · simpa [hsep] using append_ne_empty_left wd s hwd
      · simp only [hsep]
        simp only [Bool.false_eq_true, if_false, ite_false]
        exact append_ne_empty_left (wd ++ "\\") s (append_ne_empty_left wd "\\" hwd)

/-- C8 amended: for every `Compile` semantic whose working directory,
compiler and sources are non-empty strings, the synthesizer emits one
entry per source file, and every emitted entry has `directory` equal to
the working directory, non-empty mandatory fields, and an argument vector
that begins with the compiler, continues with the flags, then `-o
<output>` when an output is present, and ends with that entry's source
file. -/
theorem c8_amended (c : CompileSemantic)
    (hwd : c.workingDir ≠ "") (hcomp : c.compiler ≠ "")
    (hsrc : ∀ s ∈ c.sources, s ≠ "") :
    ∃ entries, intoEntries (.compile c) = some entries
      ∧ entries.length = c.sources.length
      ∧ ∀ en ∈ entries,
          en.directory = c.workingDir
          ∧ en.file ≠ ""
          ∧ en.directory ≠ ""
          ∧ en.arguments.headD "" = c.compiler
          ∧ en.arguments.headD "" ≠ ""
          ∧ ∃ src ∈ c.sources,
              en.file = abspath c.workingDir src
              ∧ en.arguments = c.compiler :: (c.flags
                  ++ (match c.output with
                      | some o => ["-o", o]
                      | none => [])
                  ++ [src]) := by
  refine ⟨_, rfl, by simp [intoEntries], ?_⟩
  intro en hen
  simp only [intoEntries, List.mem_map] at hen
  obtain ⟨src, hsrcmem, rfl⟩ := hen
  refine ⟨rfl, abspath_ne_empty _ _ hwd (hsrc src hsrcmem), hwd, rfl, hcomp,
    src, hsrcmem, rfl, ?_⟩
  simp

/-- C8 amended witness: the simple-compile scenario produces the expected
single well-formed entry. -/
theorem c8_amended_witness :
    ∃ entries,
      intoEntries (.compile
        { workingDir := "C:\\proj", compiler := "cc", flags := ["-c"],
          sources := ["source.c"], output := some "source.o" }) = some entries
      ∧ entries.length = (["source.c"] : List String).length
      ∧ ∀ en ∈ entries,
          en.directory = "C:\\proj"
          ∧ en.file ≠ ""
          ∧ en.directory ≠ ""
          ∧ en.arguments.headD "" = "cc"
          ∧ en.arguments.headD "" ≠ ""
          ∧ ∃ src ∈ (["source.c"] : List String),
              en.file = abspath "C:\\proj" src
              ∧ en.arguments = "cc" :: (["-c"]
                  ++ (match (some "source.o" : Option String) with
                      | some o => ["-o", o]
                      | none => [])
                  ++ [src]) :=
  c8_amended
    { workingDir := "C:\\proj", compiler := "cc", flags := ["-c"],
      sources := ["source.c"], output := some "source.o" }
    (by decide) (by decide) (by decide)

/-! ## Lookup lemmas (used for C4 and C1) -/

theorem byteLt_irrefl (bs : List Nat) : byteLt bs bs = false := by
  induction bs with
  | nil => rfl
  | cons b rest ih => simp [byteLt, ih]

theorem strLtB_irrefl (s : String) : strLtB s s = false := byteLt_irrefl _

theorem getLast?_mem' {α : Type} {l : List α} {a : α} (h : l.getLast? = some a) : a ∈ l := by
  have hx : a ∈ l.getLast? := by simp [h, Option.mem_def]
  obtain ⟨hne, rfl⟩ := List.mem_getLast?_eq_getLast hx
  exact List.getLast_mem hne

theorem lowerBoundEntry_mem {m : List (String × FlagDefinition)} {key : String}
    {e : String × FlagDefinition} (h : lowerBoundEntry m key = some e) : e ∈ m := by
  unfold lowerBoundEntry at h
  have h1 : e ∈ m.dropWhile (fun x : String × FlagDefinition => strLtB x.1 key) :=
    List.mem_of_mem_head? (by simp [h, Option.mem_def])
  exact (List.dropWhile_sublist (fun x : String × FlagDefinition => strLtB x.1 key)).mem h1

theorem predEntry_mem {m : List (String × FlagDefinition)} {key : String}
    {e : String × FlagDefinition} (h : predEntry m key = some e) : e ∈ m := by
  unfold predEntry at h
  exact (List.takeWhile_sublist _).mem (getLast?_mem' h)

theorem lookupCandidates_mem {m : List (String × FlagDefinition)} {key : String}
    {e : String × FlagDefinition} (h : e ∈ lookupCandidates m key) : e ∈ m := by
  unfold lookupCandidates at h
  rcases List.mem_append.mp h with h1 | h2
  · rcases List.mem_append.mp h1 with h3 | h4
    · exact lowerBoundEntry_mem (by simpa using h3)
    · exact predEntry_mem (by simpa using h4)
  · exact getLast?_mem' (by simpa using h2)

/-- Every successful lookup result comes from `check_equal` or
`check_partial` on one of the three consulted entries. -/
theorem lookup_sound {m : List (String × FlagDefinition)} {key : String}
    {r : Nat × CompilerFlagType} (h : lookup m key = some r) :
    ∃ e ∈ lookupCandidates m key,
      checkEqual key e = some r ∨ checkSticky key e = some r := by
  have hlast : ∀ (hm : (match m.getLast? with
      | some cand => checkSticky key cand
      | none => none) = some r),
      ∃ e ∈ lookupCandidates m key,
        checkEqual key e = some r ∨ checkSticky key e = some r := by
    intro hm
    rcases hl : m.getLast? with _ | lastE <;> rw [hl] at hm
    · simp at hm
    · exact ⟨lastE, by simp [lookupCandidates, hl], Or.inr hm⟩
  unfold lookup at h
  rcases hlb : lowerBoundEntry m key with _ | cand <;> rw [hlb] at h <;> dsimp only at h
  · exact hlast h
  · rcases hce : checkEqual key cand with _ | r₁ <;> rw [hce] at h <;> dsimp only at h
    · rcases hcs : checkSticky key cand with _ | r₂ <;> rw [hcs] at h <;> dsimp only at h
      · by_cases hfirst : (m.head?.map Prod.fst) = some cand.1
        · rw [if_pos hfirst] at h; dsimp only at h
          exact hlast h
        · rw [if_neg hfirst] at h
          rcases hpe : predEntry m key with _ | prev <;> rw [hpe] at h <;> dsimp only at h
          · exact hlast h
          · rcases hps : checkSticky key prev with _ | r₃ <;> rw [hps] at h <;>
              dsimp only at h
            · exact hlast h
            · injection h with h'
              exact ⟨prev, by simp [lookupCandidates, hpe], Or.inr (by rw [hps, h'])⟩
      · injection h with h'
        exact ⟨cand, by simp [lookupCandidates, hlb], Or.inr (by rw [hcs, h'])⟩
    · injection h with h'
      exact ⟨cand, by simp [lookupCandidates, hlb], Or.inl (by rw [hce, h'])⟩

theorem lowerBoundEntry_cons (e : String × FlagDefinition)
    (rest : List (String × FlagDefinition)) (key : String) :
    lowerBoundEntry (e :: rest) key
      = if strLtB e.1 key = true then lowerBoundEntry rest key else some e := by
  unfold lowerBoundEntry
  rw [List.dropWhile_cons]
  by_cases h : strLtB e.1 key = true <;> simp [h]

/-- On a sorted table, when the argument is present as a key, the
lower-bound entry is exactly that key's entry. -/
theorem lowerBound_of_find? {m : List (String × FlagDefinition)} {key : String}
    {d : String × FlagDefinition}
    (hsort : m.Pairwise (fun a b => strLtB a.1 b.1 = true))
    (hfind : m.find? (fun e => e.1 == key) = some d) :
    lowerBoundEntry m key = some d := by
  induction m with
  | nil => simp at hfind
  | cons e rest ih =>
    rw [List.find?_cons] at hfind
    by_cases he : (e.1 == key) = true
    · rw [he] at hfind
      injection hfind with hd
      have hkey : e.1 = key := by simpa using he
      rw [lowerBoundEntry_cons, ← hkey, strLtB_irrefl]
      simp [hd]
    · rw [Bool.not_eq_true] at he
      rw [he] at hfind
      have hdmem : d ∈ rest := List.mem_of_find?_eq_some hfind
      have hdkey : d.1 = key := by simpa using List.find?_some hfind
      have hlt : strLtB e.1 key = true := by
        have hp := (List.pairwise_cons.mp hsort).1 d hdmem
        rwa [hdkey] at hp
      rw [lowerBoundEntry_cons, if_pos hlt]
      exact ih (List.pairwise_cons.mp hsort).2 hfind

/-! ## C4 amended -/

/-- C4 amended: the lookup preference is — an exact key match (a table key
equal to the argument, with exact matching allowed) beats everything and
its definition is applied; otherwise the lookup consults only *three*
partial-match candidates (the lower-bound entry, its predecessor, and the
last table entry), each matched against the argument on the first
`min`-length bytes, so the longest prefix key is *not* always applied (see
the counterexample, where `-fp` selects `-fplugin` over `-f`). -/
theorem c4_amended (key : String) (hne : key ≠ "") :
    (∀ d, flagMap.find? (fun e => e.1 == key) = some d →
        d.2.consumption.exactAllowed = true →
        lookup flagMap key = some (d.2.consumption.countFor true, d.2.type_))
    ∧ (∀ r, lookup flagMap key = some r →
        ∃ e ∈ lookupCandidates flagMap key,
          checkEqual key e = some r ∨ checkSticky key e = some r) := by
  constructor
  · intro d hfind hexact
    have hlb : lowerBoundEntry flagMap key = some d :=
      lowerBound_of_find? flagMap_sorted hfind
    have hdkey : d.1 = key := by simpa using List.find?_some hfind
    have hce : checkEqual key d
        = some (d.2.consumption.countFor true, d.2.type_) := by
      unfold checkEqual
      simp [hne, hdkey, hexact]
    simp [lookup, hlb, hce]
  · intro r h
    exact lookup_sound h

/-- C4 amended witness: `-o` is present in the table with exact matching
allowed, so its exact definition is applied; and the successful lookup of
`-L.` is produced by a partial match on one of the three candidates. -/
theorem c4_amended_witness :
    lookup flagMap "-o" = some (1, CompilerFlagType.kindOfOutputOutput)
    ∧ ∃ e ∈ lookupCandidates flagMap "-L.",
        checkEqual "-L." e = some (0, CompilerFlagType.directorySearchLinker)
        ∨ checkSticky "-L." e = some (0, CompilerFlagType.directorySearchLinker) :=
  ⟨by
    simpa using
      (c4_amended "-o" (by decide)).1 ("-o", fd 1 .exact false .kindOfOutputOutput)
        (by decide) (by decide),
   (c4_amended "-L." (by decide)).2 (0, CompilerFlagType.directorySearchLinker) (by decide)⟩

/-! ## C1 amended -/

theorem checkEqual_spec {key : String} {e : String × FlagDefinition}
    {r : Nat × CompilerFlagType} (h : checkEqual key e = some r) :
    e.1 = key ∧ r.2 = e.2.type_ ∧ e.2.consumption.exactAllowed = true := by
  simp only [checkEqual] at h
  split_ifs at h with h1 h2 h3
  injection h with h'
  exact ⟨not_not.mp h2, by rw [← h'], h3⟩

theorem checkSticky_spec {key : String} {e : String × FlagDefinition}
    {r : Nat × CompilerFlagType} (h : checkSticky key e = some r) :
    r.2 = e.2.type_ ∧ e.2.consumption.stickyAllowed = true := by
  simp only [checkSticky] at h
  split_ifs at h with h1 h2 h3
  injection h with h'
  exact ⟨by rw [← h'], h2⟩

/-- In the collected map, the only entries of category
`KindOfOutputNoLinking` are `-c` and `-S`, and neither allows partial
matching (the `-E` entry of that category was overwritten by the later
`Other` duplicate). -/
theorem noLinking_entries :
    ∀ e ∈ flagMap, e.2.type_ = CompilerFlagType.kindOfOutputNoLinking →
      (e.1 = "-c" ∨ e.1 = "-S") ∧ e.2.consumption.stickyAllowed = false := by
  decide

/-- A lookup can only classify the tokens `-c` and `-S` as
`KindOfOutputNoLinking`. -/
theorem lookup_noLinking {key : String} {n : Nat}
    (h : lookup flagMap key = some (n, CompilerFlagType.kindOfOutputNoLinking)) :
    key = "-c" ∨ key = "-S" := by
  obtain ⟨e, hmem, hcase⟩ := lookup_sound h
  have hm : e ∈ flagMap := lookupCandidates_mem hmem
  rcases hcase with hce | hcs
  · obtain ⟨hkey, htype, _⟩ := checkEqual_spec hce
    have hfact := (noLinking_entries e hm htype.symm).1
    rw [← hkey]
    exact hfact
  · obtain ⟨htype, hsticky⟩ := checkSticky_spec hcs
    have hfact := (noLinking_entries e hm htype.symm).2
    rw [hfact] at hsticky
    cases hsticky

theorem parseResult_ok {input : List String} {c : Nat} {t : CompilerFlagType}
    {f : CompilerFlag} {rest : List String} (h : parseResult input c t = .ok f rest) :
    f = { arguments := input.take c, type_ := t } ∧ rest = input.drop c := by
  unfold parseResult at h
  split_ifs at h
  · injection h with h1 h2
    exact ⟨h1.symm, h2.symm⟩

theorem flagParserStep_ok {input : List String} {f : CompilerFlag} {rest : List String}
    (h : flagParserStep input = .ok f rest) :
    ∃ key tl n, input = key :: tl
      ∧ lookup flagMap key = some (n, f.type_) ∧ f.headArg = key := by
  unfold flagParserStep at h
  rcases input with _ | ⟨key, tl⟩
  · simp at h
  · dsimp only at h
    rcases hl : lookup flagMap key with _ | p <;> rw [hl] at h <;> dsimp only at h
    · simp at h
    · rcases p with ⟨count, t⟩
      obtain ⟨hf, _⟩ := parseResult_ok h
      refine ⟨key, tl, count, rfl, ?_, ?_⟩
      · rw [hl, hf]
      · rw [hf]
        simp [CompilerFlag.headArg, List.take_succ_cons]

theorem sourceMatcherStep_ok {input : List String} {f : CompilerFlag} {rest : List String}
    (h : sourceMatcherStep input = .ok f rest) : f.type_ = CompilerFlagType.source := by
  unfold sourceMatcherStep at h
  rcases input with _ | ⟨file, tl⟩
  · simp at h
  · dsimp only at h
    split_ifs at h with hc
    rw [(parseResult_ok h).1]

theorem everythingElseStep_ok {input : List String} {f : CompilerFlag} {rest : List String}
    (h : everythingElseStep input = .ok f rest) :
    f.type_ = CompilerFlagType.linkerObjectFile := by
  unfold everythingElseStep at h
  rcases input with _ | ⟨front, tl⟩
  · simp at h
  · dsimp only at h
    split_ifs at h with hc
    rw [(parseResult_ok h).1]

/-- No single parse step ever produces a `KindOfOutputNoLinking` flag whose
literal token is `-E`. -/
theorem oneOfStep_no_E {input : List String} {f : CompilerFlag} {rest : List String}
    (h : oneOfStep input = .ok f rest) :
    ¬(f.type_ = CompilerFlagType.kindOfOutputNoLinking ∧ f.headArg = "-E") := by
  rintro ⟨htype, hhead⟩
  unfold oneOfStep at h
  rcases h1 : flagParserStep input with f1 | _ | _ <;> rw [h1] at h <;> dsimp only at h
  · injection h with hf hr
    subst hf
    obtain ⟨key, tl, n, _, hl, hkey⟩ := flagParserStep_ok h1
    rw [htype] at hl
    rcases lookup_noLinking hl with hk | hk <;> rw [hk] at hkey <;>
      rw [hkey] at hhead <;> simp at hhead
  · rcases h2 : sourceMatcherStep input with f2 | _ | _ <;> rw [h2] at h <;> dsimp only at h
    · injection h with hf hr
      subst hf
      rw [sourceMatcherStep_ok h2] at htype
      cases htype
    · rcases h3 : everythingElseStep input with f3 | _ | _ <;> rw [h3] at h <;>
        dsimp only at h
      · injection h with hf hr
        subst hf
        rw [everythingElseStep_ok h3] at htype
        cases htype
      · simp at h
      · simp at h
    · simp at h
  · simp at h

/-- No flag produced by the repeated parser is a `KindOfOutputNoLinking`
flag with literal token `-E`. -/
theorem repeatGo_no_E (fuel : Nat) (input : List String) (flags : List CompilerFlag)
    (h : repeatGo fuel input = .ok flags) :
    ∀ f ∈ flags, ¬(f.type_ = CompilerFlagType.kindOfOutputNoLinking ∧ f.headArg = "-E") := by
  induction fuel generalizing input flags with
  | zero =>
    rcases input with _ | ⟨x, xs⟩
    · simp only [repeatGo, List.isEmpty_nil, if_true] at h
      injection h with h'
      subst h'
      intro f hf
      cases hf
    · simp [repeatGo] at h
  | succ fuel ih =>
    rcases input with _ | ⟨x, xs⟩
    · simp only [repeatGo, List.isEmpty_nil, if_true] at h
      injection h with h'
      subst h'
      intro f hf
      cases hf
    · simp only [repeatGo, List.isEmpty_cons, if_false, Bool.false_eq_true] at h
      rcases h1 : oneOfStep (x :: xs) with ⟨flag, rest⟩ | _ | _ <;> rw [h1] at h <;>
        dsimp only at h
      · rcases h2 : repeatGo fuel rest with flags' | r | _ <;> rw [h2] at h <;>
          dsimp only at h
        · injection h with h'
          subst h'
          intro f hf
          rcases List.mem_cons.mp hf with rfl | hmem
          · exact oneOfStep_no_E h1
          · exact ih rest flags' h2 f hmem
        · simp at h
        · simp at h
      · simp at h
      · simp at h

/-- Pointwise rewriting of `is_preprocessor` when no flag is a
`KindOfOutputNoLinking` `-E`. -/
theorem isPreprocessor_no_E (flags : List CompilerFlag)
    (hall : ∀ f ∈ flags,
      ¬(f.type_ = CompilerFlagType.kindOfOutputNoLinking ∧ f.headArg = "-E")) :
    isPreprocessor flags
      = flags.any (fun f =>
          f.type_ = CompilerFlagType.preprocessorMake
            && (f.headArg = "-M" || f.headArg = "-MM")) := by
  induction flags with
  | nil => rfl
  | cons f fs ih =>
    have hf := hall f (List.mem_cons_self _ _)
    have hfirst : (decide (f.type_ = CompilerFlagType.kindOfOutputNoLinking)
        && decide (f.headArg = "-E")) = false := by
      rcases Decidable.em (f.type_ = CompilerFlagType.kindOfOutputNoLinking) with h1 | h1
      · rcases Decidable.em (f.headArg = "-E") with h2 | h2
        · exact absurd ⟨h1, h2⟩ hf
        · simp [h2]
      · simp [h1]
    have ihr := ih (fun g hg => hall g (List.mem_cons_of_mem _ hg))
    simp only [isPreprocessor, List.any_cons] at ihr ⊢
    rw [hfirst]
    rw [ihr]
    simp

/-- C1 amended: the duplicate `-E` key means the collected flag table maps
`-E` to category `Other`, so an accepted argument vector never contains a
`KindOfOutputNoLinking` flag whose token is `-E`; consequently the `-E`
branch of the preprocessing test is dead, and an accepted vector (with or
without `-E`, and with no `KindOfOutputInfo` flag) is classified as
`Preprocess` exactly when some `PreprocessorMake` flag is `-M` or `-MM`. -/
theorem c1_amended (e : Execution) (flags : List CompilerFlag)
    (h : gccParse e = .ok flags) :
    (∀ f ∈ flags,
      ¬(f.type_ = CompilerFlagType.kindOfOutputNoLinking ∧ f.headArg = "-E"))
    ∧ isPreprocessor flags
        = flags.any (fun f =>
            f.type_ = CompilerFlagType.preprocessorMake
              && (f.headArg = "-M" || f.headArg = "-MM")) := by
  have hall : ∀ f ∈ flags,
      ¬(f.type_ = CompilerFlagType.kindOfOutputNoLinking ∧ f.headArg = "-E") := by
    unfold gccParse at h
    rcases harg : e.arguments with _ | ⟨prog, rest⟩ <;> rw [harg] at h
    · simp at h
    · exact repeatGo_no_E _ _ _ h
  exact ⟨hall, isPreprocessor_no_E flags hall⟩

/-- C1 amended witness: argv `["cc","-M","x.c"]` parses, produces no
no-linking `-E` flag, and its preprocessing test agrees with the `-M`
test. -/
theorem c1_amended_witness :
    (∀ f ∈ ([{ arguments := ["-M"], type_ := .preprocessorMake },
             { arguments := ["x.c"], type_ := .source }] : List CompilerFlag),
      ¬(f.type_ = CompilerFlagType.kindOfOutputNoLinking ∧ f.headArg = "-E"))
    ∧ isPreprocessor
        ([{ arguments := ["-M"], type_ := .preprocessorMake },
          { arguments := ["x.c"], type_ := .source }] : List CompilerFlag)
      = ([{ arguments := ["-M"], type_ := .preprocessorMake },
          { arguments := ["x.c"], type_ := .source }] : List CompilerFlag).any
          (fun f =>
            f.type_ = CompilerFlagType.preprocessorMake
              && (f.headArg = "-M" || f.headArg = "-MM")) :=
  c1_amended
    { executable := "/usr/bin/cc"
      arguments := ["cc", "-M", "x.c"]
      workingDir := "wd"
      environment := [] }
    [{ arguments := ["-M"], type_ := CompilerFlagType.preprocessorMake },
     { arguments := ["x.c"], type_ := CompilerFlagType.source }]
    (by decide)

end Winbear
